import Mathlib

/-!
Verification of the shopify-image-seo repository's core logic: the keyword
sanitizer, the naming allocator, the adaptive re-encode fallback of the
transform pipeline, batch file acceptance, the batch processing loop, and
the filename-based keyword classifier.  Pixel-level decode/crop/encode is
performed by the browser canvas API in the source; it is abstracted here as
an encoder oracle supplying the encoded bytes for a requested content type
and quality, which is the only information the verified logic consumes.
-/

namespace ShopifySeo

/-- Whitespace characters of the JavaScript regular-expression class \s
(also the set trimmed by String.prototype.trim), by code point. -/
def isWs (c : Char) : Bool :=
  decide (c.toNat = 32 ∨ c.toNat = 9 ∨ c.toNat = 10 ∨ c.toNat = 13 ∨
    c.toNat = 11 ∨ c.toNat = 12 ∨
    c.toNat = 0xa0 ∨ c.toNat = 0x1680 ∨ (0x2000 ≤ c.toNat ∧ c.toNat ≤ 0x200a) ∨
    c.toNat = 0x2028 ∨ c.toNat = 0x2029 ∨ c.toNat = 0x202f ∨ c.toNat = 0x205f ∨
    c.toNat = 0x3000 ∨ c.toNat = 0xfeff)

/-- JavaScript String.prototype.toLowerCase restricted to the ASCII range,
which is the range relevant to the sanitizer's retained character set. -/
def jsLower (c : Char) : Char :=
  if 65 ≤ c.toNat ∧ c.toNat ≤ 90 then Char.ofNat (c.toNat + 32) else c

/-- Characters kept by the sanitizer's strip step: lowercase ASCII letters,
ASCII digits, the CJK Unified Ideographs block 4E00-9FA5, whitespace and
hyphen (the source regex deletes everything else). -/
def allowedChar (c : Char) : Bool :=
  decide ((97 ≤ c.toNat ∧ c.toNat ≤ 122) ∨ (48 ≤ c.toNat ∧ c.toNat ≤ 57) ∨
    (0x4e00 ≤ c.toNat ∧ c.toNat ≤ 0x9fa5) ∨ isWs c = true ∨ c = '-')

/-- Model of the replace step with the global whitespace-run regex: each
maximal run of whitespace becomes a single hyphen. -/
def wsToHyphen : List Char → List Char
  | [] => []
  | [c] => if isWs c then ['-'] else [c]
  | a :: b :: cs =>
    if isWs a then
      if isWs b then wsToHyphen (b :: cs) else '-' :: wsToHyphen (b :: cs)
    else a :: wsToHyphen (b :: cs)

/-- Model of the replace step with the global hyphen-run regex: each maximal
run of hyphens becomes a single hyphen. -/
def collapseHyphens : List Char → List Char
  | [] => []
  | [c] => [c]
  | a :: b :: cs =>
    if a = '-' ∧ b = '-' then collapseHyphens (b :: cs)
    else a :: collapseHyphens (b :: cs)

/-- Model of String.prototype.trim: drop leading and trailing whitespace. -/
def trimList (l : List Char) : List Char :=
  ((l.dropWhile isWs).reverse.dropWhile isWs).reverse

/-- The sanitizer pipeline on character lists, from the source:
trim, toLowerCase, strip disallowed characters, whitespace runs to one
hyphen, hyphen runs to one hyphen. -/
def sanitizeList (l : List Char) : List Char :=
  collapseHyphens (wsToHyphen (((trimList l).map jsLower).filter allowedChar))

/-- sanitizeKeyword from src/src/App.tsx (identical in the other variants). -/
def sanitizeKeyword (s : String) : String :=
  ⟨sanitizeList s.data⟩

/-- Characters that every sanitizer output consists of: lowercase ASCII
letters, digits, CJK ideographs or a hyphen (no whitespace survives). -/
def stableChar (c : Char) : Prop :=
  (97 ≤ c.toNat ∧ c.toNat ≤ 122) ∨ (48 ≤ c.toNat ∧ c.toNat ≤ 57) ∨
    (0x4e00 ≤ c.toNat ∧ c.toNat ≤ 0x9fa5) ∨ c = '-'

theorem stableChar_not_ws {c : Char} (h : stableChar c) : isWs c = false := by
  unfold isWs
  rcases h with h | h | h | h
  · simp only [decide_eq_false_iff_not]
    omega
  · simp only [decide_eq_false_iff_not]
    omega
  · simp only [decide_eq_false_iff_not]
    omega
  · subst h
    decide

theorem stableChar_lower_fixed {c : Char} (h : stableChar c) : jsLower c = c := by
  unfold jsLower
  rcases h with h | h | h | h
  · rw [if_neg (by omega)]
  · rw [if_neg (by omega)]
  · rw [if_neg (by omega)]
  · subst h
    decide

theorem stableChar_allowed {c : Char} (h : stableChar c) : allowedChar c = true := by
  unfold allowedChar
  rcases h with h | h | h | h
  · simp only [decide_eq_true_eq]
    exact Or.inl h
  · simp only [decide_eq_true_eq]
    exact Or.inr (Or.inl h)
  · simp only [decide_eq_true_eq]
    exact Or.inr (Or.inr (Or.inl h))
  · subst h
    decide

/-- Every character of wsToHyphen's output is a non-whitespace character of
the input or a hyphen. -/
theorem mem_wsToHyphen {c : Char} :
    ∀ l : List Char, c ∈ wsToHyphen l → (c ∈ l ∧ isWs c = false) ∨ c = '-' := by
  intro l
  induction l with
  | nil => intro h; simp [wsToHyphen] at h
  | cons a tail ih =>
    cases tail with
    | nil =>
      intro h
      simp only [wsToHyphen] at h
      by_cases ha : isWs a
      · simp [ha] at h
        exact Or.inr h
      · simp [ha] at h
        refine Or.inl ⟨by simp [h], ?_⟩
        rw [h]
        simpa using ha
    | cons b cs =>
      intro h
      simp only [wsToHyphen] at h
      by_cases ha : isWs a
      · by_cases hb : isWs b
        · simp [ha, hb] at h
          rcases ih h with ⟨h1, h2⟩ | h1
          · exact Or.inl ⟨List.mem_cons_of_mem a h1, h2⟩
          · exact Or.inr h1
        · simp [ha, hb] at h
          rcases h with h | h
          · exact Or.inr h
          · rcases ih h with ⟨h1, h2⟩ | h1
            · exact Or.inl ⟨List.mem_cons_of_mem a h1, h2⟩
            · exact Or.inr h1
      · simp [ha] at h
        rcases h with h | h
        · refine Or.inl ⟨by simp [h], ?_⟩
          rw [h]
          simpa using ha
        · rcases ih h with ⟨h1, h2⟩ | h1
          · exact Or.inl ⟨List.mem_cons_of_mem a h1, h2⟩
          · exact Or.inr h1

/-- collapseHyphens never introduces new characters. -/
theorem mem_collapseHyphens {c : Char} :
    ∀ l : List Char, c ∈ collapseHyphens l → c ∈ l := by
  intro l
  induction l with
  | nil => intro h; simp [collapseHyphens] at h
  | cons a tail ih =>
    cases tail with
    | nil => intro h; simpa [collapseHyphens] using h
    | cons b cs =>
      intro h
      by_cases hab : a = '-' ∧ b = '-'
      · obtain ⟨ha', hb'⟩ := hab
        subst ha'
        subst hb'
        simp only [collapseHyphens, and_self, if_true] at h
        exact List.mem_cons_of_mem _ (ih h)
      · simp only [collapseHyphens, if_neg hab] at h
        rcases List.mem_cons.mp h with h | h
        · subst h; exact List.mem_cons_self c (b :: cs)
        · exact List.mem_cons_of_mem a (ih h)

theorem wsToHyphen_of_no_ws :
    ∀ l : List Char, (∀ c ∈ l, isWs c = false) → wsToHyphen l = l := by
  intro l
  induction l with
  | nil => intro _; rfl
  | cons a tail ih =>
    cases tail with
    | nil =>
      intro h
      have ha := h a (List.mem_cons_self a [])
      simp [wsToHyphen, ha]
    | cons b cs =>
      intro h
      have ha := h a (List.mem_cons_self a (b :: cs))
      simp only [wsToHyphen, ha]
      simp only [Bool.false_eq_true, if_false]
      rw [ih (fun c hc => h c (List.mem_cons_of_mem a hc))]

/-- Hyphen-run freedom: no two adjacent hyphens. -/
def HFree (l : List Char) : Prop :=
  List.Chain' (fun a b => ¬(a = '-' ∧ b = '-')) l

theorem collapseHyphens_head :
    ∀ (cs : List Char) (b : Char), ∃ t : List Char,
      collapseHyphens (b :: cs) = (if b = '-' then '-' else b) :: t := by
  intro cs
  induction cs with
  | nil =>
    intro b
    refine ⟨[], ?_⟩
    by_cases hb : b = '-'
    · simp [collapseHyphens, hb]
    · simp [collapseHyphens, hb]
  | cons c cs' ih =>
    intro b
    by_cases hb : b = '-'
    · subst hb
      by_cases hc : c = '-'
      · subst hc
        obtain ⟨t, ht⟩ := ih '-'
        refine ⟨t, ?_⟩
        simp only [collapseHyphens, and_self, if_true]
        simpa using ht
      · refine ⟨collapseHyphens (c :: cs'), ?_⟩
        simp [collapseHyphens, hc]
    · refine ⟨collapseHyphens (c :: cs'), ?_⟩
      have hbc : ¬('-' = '-' ∧ c = '-') ∨ True := Or.inr trivial
      simp only [collapseHyphens]
      rw [if_neg (by simp [hb]), if_neg hb]

theorem hfree_collapseHyphens : ∀ l : List Char, HFree (collapseHyphens l) := by
  intro l
  induction l with
  | nil => simp [collapseHyphens, HFree]
  | cons a tail ih =>
    cases tail with
    | nil => simp [collapseHyphens, HFree]
    | cons b cs =>
      by_cases hab : a = '-' ∧ b = '-'
      · obtain ⟨ha', hb'⟩ := hab
        subst ha'
        subst hb'
        simp only [collapseHyphens, and_self, if_true]
        simpa [collapseHyphens] using ih
      · obtain ⟨t, ht⟩ := collapseHyphens_head cs b
        simp only [collapseHyphens, if_neg hab]
        unfold HFree
        rw [ht, List.chain'_cons]
        constructor
        · by_cases hb : b = '-'
          · rw [if_pos hb]
            intro hcon
            exact hab ⟨hcon.1, hb⟩
          · rw [if_neg hb]
            intro hcon
            exact hb hcon.2
        · rw [← ht]
          exact ih

theorem collapseHyphens_of_hfree :
    ∀ l : List Char, HFree l → collapseHyphens l = l := by
  intro l
  induction l with
  | nil => intro _; rfl
  | cons a tail ih =>
    cases tail with
    | nil => intro _; rfl
    | cons b cs =>
      intro h
      unfold HFree at h
      rw [List.chain'_cons] at h
      simp only [collapseHyphens, if_neg h.1]
      rw [ih h.2]

theorem dropWhile_of_no_sat {p : Char → Bool} :
    ∀ l : List Char, (∀ c ∈ l, p c = false) → l.dropWhile p = l := by
  intro l h
  cases l with
  | nil => rfl
  | cons a tail =>
    have := h a (List.mem_cons_self a tail)
    simp [List.dropWhile, this]

theorem map_fixed_of {f : Char → Char} :
    ∀ l : List Char, (∀ c ∈ l, f c = c) → l.map f = l := by
  intro l
  induction l with
  | nil => intro _; rfl
  | cons a tail ih =>
    intro h
    simp only [List.map_cons]
    rw [h a (List.mem_cons_self a tail), ih (fun c hc => h c (List.mem_cons_of_mem a hc))]

theorem filter_of_all {p : Char → Bool} :
    ∀ l : List Char, (∀ c ∈ l, p c = true) → l.filter p = l := by
  intro l
  induction l with
  | nil => intro _; rfl
  | cons a tail ih =>
    intro h
    simp only [List.filter_cons, h a (List.mem_cons_self a tail), if_true]
    rw [ih (fun c hc => h c (List.mem_cons_of_mem a hc))]

/-- Every character of the sanitizer's output is stable: lowercase letter,
digit, CJK ideograph or hyphen. -/
theorem sanitizeList_stable {c : Char} {l : List Char}
    (h : c ∈ sanitizeList l) : stableChar c := by
  unfold sanitizeList at h
  have h1 := mem_collapseHyphens _ h
  rcases mem_wsToHyphen _ h1 with ⟨h2, hws⟩ | h2
  · have h3 := List.mem_filter.mp h2
    have h4 := h3.2
    simp only [allowedChar, decide_eq_true_eq] at h4
    rcases h4 with h4 | h4 | h4 | h4 | h4
    · exact Or.inl h4
    · exact Or.inr (Or.inl h4)
    · exact Or.inr (Or.inr (Or.inl h4))
    · rw [h4] at hws; cases hws
    · exact Or.inr (Or.inr (Or.inr h4))
  · exact Or.inr (Or.inr (Or.inr h2))

theorem sanitizeList_idempotent (l : List Char) :
    sanitizeList (sanitizeList l) = sanitizeList l := by
  have hstable : ∀ c ∈ sanitizeList l, stableChar c := fun c hc => sanitizeList_stable hc
  have hnws : ∀ c ∈ sanitizeList l, isWs c = false :=
    fun c hc => stableChar_not_ws (hstable c hc)
  have htrim : trimList (sanitizeList l) = sanitizeList l := by
    unfold trimList
    rw [dropWhile_of_no_sat _ hnws]
    rw [dropWhile_of_no_sat _ (fun c hc => hnws c (List.mem_reverse.mp hc))]
    exact List.reverse_reverse _
  have hfree : HFree (sanitizeList l) := by
    unfold sanitizeList
    exact hfree_collapseHyphens _
  have step : sanitizeList (sanitizeList l) =
      collapseHyphens (wsToHyphen (((trimList (sanitizeList l)).map jsLower).filter
        allowedChar)) := rfl
  rw [step, htrim]
  rw [map_fixed_of _ (fun c hc => stableChar_lower_fixed (hstable c hc))]
  rw [filter_of_all _ (fun c hc => stableChar_allowed (hstable c hc))]
  rw [wsToHyphen_of_no_ws _ hnws]
  exact collapseHyphens_of_hfree _ hfree

/-- C3: for every string s, sanitize(sanitize(s)) = sanitize(s): the keyword
sanitizer (trim, lower-case, strip characters outside lowercase letters,
digits, CJK ideographs, whitespace and hyphen, collapse whitespace runs to
one hyphen, collapse hyphen runs to one) is idempotent. -/
theorem sanitizeKeyword_idempotent (s : String) :
    sanitizeKeyword (sanitizeKeyword s) = sanitizeKeyword s := by
  unfold sanitizeKeyword
  exact congrArg String.mk (sanitizeList_idempotent s.data)

/-! The transform pipeline of processSingleImage (src/unnamed/part_000 lines
541-658; inlined identically in processImages of src/src/App.tsx).  The
canvas decode/crop/encode calls are abstracted by an encoder oracle giving
the encoded byte buffer for a requested content type and quality; the
center-crop geometry only changes the pixel surface the oracle encodes and
is invisible to the byte-level logic verified here. -/

/-- The fixed content-type to extension table mimeToExt from the source. -/
def mimeToExt (t : String) : Option String :=
  if t = "image/jpeg" then some "jpg"
  else if t = "image/png" then some "png"
  else if t = "image/webp" then some "webp"
  else none

/-- File metadata and bytes of one uploaded image. -/
structure FileData where
  name : String
  bytes : List Nat
  mime : String
deriving DecidableEq

/-- An accepted batch item: id plus file, with the optional per-image
keyword override of the part_000 variant. -/
structure InputImage where
  id : String
  file : FileData
  customKeyword : Option String := none
deriving DecidableEq

/-- Source line: const originalType = input.file.type or 'image/jpeg'. -/
def originalTypeOf (f : FileData) : String :=
  if f.mime = "" then "image/jpeg" else f.mime

/-- The three supported output target types. -/
def supportedTargets : List String :=
  ["image/jpeg", "image/png", "image/webp"]

/-- Preferred output type: reuse the original type when it is a supported
target, else fall back to JPEG. -/
def preferredTypeOf (f : FileData) : String :=
  if originalTypeOf f ∈ supportedTargets then originalTypeOf f else "image/jpeg"

/-- Quality is adjustable only for the two lossy target types. -/
def canAdjustQualityOf (f : FileData) : Bool :=
  decide (preferredTypeOf f = "image/jpeg" ∨ preferredTypeOf f = "image/webp")

/-- Encoder oracle: content type and optional quality to encoded bytes,
standing for canvas.toBlob on the drawn (possibly center-cropped) surface. -/
def Encoder : Type :=
  String → Option ℚ → List Nat

/-- Source quality constant 0.78. -/
def q78 : ℚ := 78 / 100

/-- Source quality constant 0.6. -/
def q60 : ℚ := 6 / 10

/-- Source re-encode threshold: 200 KiB. -/
def targetBytes : Nat := 200 * 1024

/-- Adaptive encode from the source: one encode at quality 0.78 (quality
omitted when not adjustable); if the result exceeds 200 KiB and quality is
adjustable, exactly one re-encode at quality 0.6. -/
def encodedOutput (enc : Encoder) (f : FileData) : List Nat :=
  let q : Option ℚ := if canAdjustQualityOf f then some q78 else none
  let b1 := enc (preferredTypeOf f) q
  if canAdjustQualityOf f = true ∧ targetBytes < b1.length then
    enc (preferredTypeOf f) (some q60)
  else b1

/-- Model of String(n).padStart(2, '0'). -/
def padIndex (n : Nat) : String :=
  if (toString n).length < 2 then "0" ++ toString n else toString n

/-- Model of the +x.toFixed(1) idiom: round to one decimal place. -/
def rnd1 (x : ℚ) : ℚ :=
  (⌊10 * x + 1 / 2⌋ : ℚ) / 10

/-- The ProcessedImage record of the source (downloadUrl, an opaque browser
object-URL handle for the blob, is not modelled). -/
structure ProcessedImage where
  id : String
  originalName : String
  seoName : String
  blob : List Nat
  sizeKb : ℚ
  originalSizeKb : ℚ
  savedPercent : ℚ
deriving DecidableEq

/-- processSingleImage from src/unnamed/part_000 (success path; the
surrounding try/catch is modelled at the call sites as an Option-valued
oracle).  Mirrors the source statement for statement. -/
def processSingleImage (enc : Encoder) (input : InputImage)
    (keywordToUse : String) (index : Nat) : ProcessedImage :=
  let outputBlob := encodedOutput enc input.file
  let indexStr := padIndex (index + 1)
  let originalSizeKb := rnd1 ((input.file.bytes.length : ℚ) / 1024)
  let ext0 := (mimeToExt (preferredTypeOf input.file)).getD "jpg"
  let finalBlob :=
    if input.file.bytes.length < outputBlob.length then input.file.bytes else outputBlob
  let ext :=
    if input.file.bytes.length < outputBlob.length then
      (mimeToExt (originalTypeOf input.file)).getD ext0
    else ext0
  let cleanKeyword :=
    if sanitizeKeyword keywordToUse = "" then "product" else sanitizeKeyword keywordToUse
  let seoName := cleanKeyword ++ "-" ++ indexStr ++ "." ++ ext
  let finalSizeKb := rnd1 ((finalBlob.length : ℚ) / 1024)
  let savedPercent :=
    if 0 < originalSizeKb then
      max 0 (rnd1 ((originalSizeKb - (finalBlob.length : ℚ) / 1024) / originalSizeKb * 100))
    else 0
  { id := input.id, originalName := input.file.name, seoName := seoName,
    blob := finalBlob, sizeKb := finalSizeKb, originalSizeKb := originalSizeKb,
    savedPercent := savedPercent }

/-- Extension resolution through the table with its JPEG default. -/
def resolveExt (t : String) : String :=
  (mimeToExt t).getD "jpg"

/-- The keyword actually used in the name: sanitized, or "product" when the
sanitized keyword is empty. -/
def cleanOf (kw : String) : String :=
  if sanitizeKeyword kw = "" then "product" else sanitizeKeyword kw

/-- The content type whose extension the output name carries: the original
type when the encoded result was discarded as larger than the input, else
the preferred type. -/
def outputTypeOf (enc : Encoder) (f : FileData) : String :=
  if f.bytes.length < (encodedOutput enc f).length then originalTypeOf f
  else preferredTypeOf f

theorem mimeToExt_isSome_of_mem {t : String} (h : t ∈ supportedTargets) :
    (mimeToExt t).isSome := by
  simp only [supportedTargets, List.mem_cons, List.mem_singleton] at h
  rcases h with h | h | h
  · subst h; rfl
  · subst h; rfl
  · simp at h
    subst h; rfl

theorem fallbackExt_eq (f : FileData) :
    (mimeToExt (originalTypeOf f)).getD ((mimeToExt (preferredTypeOf f)).getD "jpg") =
      (mimeToExt (originalTypeOf f)).getD "jpg" := by
  cases h : mimeToExt (originalTypeOf f) with
  | some e => simp
  | none =>
    have hni : originalTypeOf f ∉ supportedTargets := by
      intro hm
      have hs := mimeToExt_isSome_of_mem hm
      rw [h] at hs
      simp at hs
    have hp : preferredTypeOf f = "image/jpeg" := by
      unfold preferredTypeOf
      rw [if_neg hni]
    rw [hp]
    simp [mimeToExt]

/-- C1: whenever the final encoded size strictly exceeds the original input
byte size, the produced output bytes are exactly the original input bytes
and the output name carries the extension resolved from the original
content type through the content-type to extension table (with its JPEG
default), not the preferred output type. -/
theorem fallback_uses_original_bytes (enc : Encoder) (input : InputImage)
    (kw : String) (i : Nat)
    (h : input.file.bytes.length < (encodedOutput enc input.file).length) :
    (processSingleImage enc input kw i).blob = input.file.bytes ∧
    (processSingleImage enc input kw i).seoName =
      cleanOf kw ++ "-" ++ padIndex (i + 1) ++ "." ++ resolveExt (originalTypeOf input.file) := by
  unfold processSingleImage
  simp only [if_pos h]
  constructor
  · trivial
  · unfold cleanOf resolveExt
    rw [fallbackExt_eq]

/-- Concrete run of the C1 theorem: a one-byte JPEG whose encode comes back
two bytes long keeps its original bytes and jpg extension. -/
def encEx1 : Encoder := fun _ _ => [0, 0]

def fileEx1 : FileData := { name := "photo.jpg", bytes := [0], mime := "image/jpeg" }

def inputEx1 : InputImage := { id := "x1", file := fileEx1 }

theorem fallback_uses_original_bytes_witness :
    fileEx1.bytes.length < (encodedOutput encEx1 fileEx1).length ∧
    (processSingleImage encEx1 inputEx1 "bag" 0).blob = [0] ∧
    (processSingleImage encEx1 inputEx1 "bag" 0).seoName = "bag-01.jpg" := by
  have h : fileEx1.bytes.length < (encodedOutput encEx1 fileEx1).length := by decide
  obtain ⟨hb, hn⟩ := fallback_uses_original_bytes encEx1 inputEx1 "bag" 0 h
  refine ⟨h, hb, ?_⟩
  rw [hn]
  decide

/-- C2: for every successfully processed item, savedPercent is nonnegative;
originalSizeKb is the original byte count over 1024 rounded to one decimal;
and savedPercent is max(0, round1((originalSizeKb - finalBytes/1024) /
originalSizeKb * 100)) when originalSizeKb is positive, else 0. -/
theorem savedPercent_nonneg_and_formula (enc : Encoder) (input : InputImage)
    (kw : String) (i : Nat) :
    0 ≤ (processSingleImage enc input kw i).savedPercent ∧
    (processSingleImage enc input kw i).originalSizeKb =
      rnd1 ((input.file.bytes.length : ℚ) / 1024) ∧
    (processSingleImage enc input kw i).savedPercent =
      (if 0 < (processSingleImage enc input kw i).originalSizeKb then
        max 0 (rnd1 (((processSingleImage enc input kw i).originalSizeKb -
            ((processSingleImage enc input kw i).blob.length : ℚ) / 1024) /
          (processSingleImage enc input kw i).originalSizeKb * 100))
      else 0) := by
  refine ⟨?_, rfl, rfl⟩
  show 0 ≤ (processSingleImage enc input kw i).savedPercent
  unfold processSingleImage
  dsimp only
  split
  · exact le_max_left 0 _
  · exact le_rfl

/-- Concrete run used by the C4 naming example: a two-byte JPEG whose
encode shrinks to one byte. -/
def encEx2 : Encoder := fun _ _ => [0]

def fileEx2 : FileData := { name := "IMG_1.jpg", bytes := [0, 0], mime := "image/jpeg" }

def inputEx2 : InputImage := { id := "x2", file := fileEx2 }

/-- C4: the produced file name is always sanitize(keyword) (or "product"
when that is empty), a hyphen, the 1-based sequence index zero-padded to
two digits (natural width from 100 up), a dot, and the extension resolved
through the fixed table with JPEG default; in particular the keyword
"Summer Silk Dress!!" at sequence index 1 with a JPEG output yields
summer-silk-dress-01.jpg. -/
theorem seoName_format_and_example :
    (∀ (enc : Encoder) (input : InputImage) (kw : String) (i : Nat),
      (processSingleImage enc input kw i).seoName =
        cleanOf kw ++ "-" ++ padIndex (i + 1) ++ "." ++
          resolveExt (outputTypeOf enc input.file)) ∧
    (processSingleImage encEx2 inputEx2 "Summer Silk Dress!!" 0).seoName =
      "summer-silk-dress-01.jpg" ∧
    padIndex 1 = "01" ∧ padIndex 42 = "42" ∧ padIndex 100 = "100" := by
  refine ⟨?_, by decide, by decide, by decide, by decide⟩
  intro enc input kw i
  unfold processSingleImage outputTypeOf
  by_cases h : input.file.bytes.length < (encodedOutput enc input.file).length
  · simp only [if_pos h]
    unfold cleanOf resolveExt
    rw [fallbackExt_eq]
  · simp only [if_neg h]
    unfold cleanOf resolveExt
    rfl

/-! Sequence-index determination.  processImages numbers items by their
loop position i in the current files array; compressSingleImage (the
single-image reprocess triggered by a keyword edit) recomputes the index
with files.findIndex over the current array (src/unnamed/part_000 line
747).  deleteSingleImage removes an item by filtering the array. -/

/-- Batch entry carrying only the identity, as used by the index logic. -/
structure BatchItem where
  id : String
deriving DecidableEq

/-- Model of Array.prototype.findIndex (returning none instead of -1;
compressSingleImage returns early when the id is absent). -/
def findIdxOf (p : BatchItem → Bool) : List BatchItem → Option Nat
  | [] => none
  | x :: xs => if p x then some 0 else (findIdxOf p xs).map (· + 1)

/-- deleteSingleImage from src/unnamed/part_000: drop the item with the
given id from the files array. -/
def deleteSingleImage (files : List BatchItem) (imageId : String) : List BatchItem :=
  files.filter (fun f => f.id != imageId)

/-- The index compressSingleImage passes to processSingleImage: the item's
position in the current files array. -/
def reprocessIndex (files : List BatchItem) (imageId : String) : Option Nat :=
  findIdxOf (fun f => f.id == imageId) files

/-- C5 counterexample: with batch [a, b], reprocessing b uses index 1
(name suffix 02); after deleting the earlier image a, reprocessing b uses
index 0 (name suffix 01).  Deleting an earlier image therefore changes the
sequence index used for a later image, contradicting the claimed stability
under deletions. -/
theorem seq_index_deletion_counterexample :
    reprocessIndex [⟨"a"⟩, ⟨"b"⟩] "b" = some 1 ∧
    reprocessIndex (deleteSingleImage [⟨"a"⟩, ⟨"b"⟩] "a") "b" = some 0 ∧
    reprocessIndex (deleteSingleImage [⟨"a"⟩, ⟨"b"⟩] "a") "b" ≠
      reprocessIndex [⟨"a"⟩, ⟨"b"⟩] "b" ∧
    padIndex (1 + 1) ≠ padIndex (0 + 1) := by
  decide

/-- C5 amended: the sequence index used when an image is reprocessed is its
position in the current files array — the number of items currently
preceding it — so it changes when an earlier item is deleted. -/
theorem reprocess_index_is_current_position (l1 l2 : List BatchItem) (b : BatchItem)
    (h : ∀ x ∈ l1, x.id ≠ b.id) :
    reprocessIndex (l1 ++ b :: l2) b.id = some l1.length := by
  induction l1 with
  | nil =>
    simp [reprocessIndex, findIdxOf]
  | cons x xs ih =>
    have hx : x.id ≠ b.id := h x (List.mem_cons_self x xs)
    have hstep : reprocessIndex ((x :: xs) ++ b :: l2) b.id =
        (reprocessIndex (xs ++ b :: l2) b.id).map (· + 1) := by
      simp only [List.cons_append, reprocessIndex, findIdxOf]
      rw [if_neg (by simpa using hx)]
      rfl
    rw [hstep, ih (fun y hy => h y (List.mem_cons_of_mem x hy))]
    rfl

theorem reprocess_index_is_current_position_witness :
    (∀ x ∈ [BatchItem.mk "a"], x.id ≠ "b") ∧
    reprocessIndex [⟨"a"⟩, ⟨"b"⟩] "b" = some 1 := by
  refine ⟨by decide, ?_⟩
  exact reprocess_index_is_current_position [⟨"a"⟩] [] ⟨"b"⟩ (by decide)

/-! File acceptance (handleFiles, src/src/App.tsx lines 310-337 and the
identical src/unnamed/part_000 lines 485-511): filter by allowed content
type, truncate to the remaining capacity of the 10-item batch, raise the
limit message when the post-state reaches capacity, and reset the
processed list. -/

/-- The user-visible signals handleFiles can raise. -/
inductive UiMsg
  | invalidType
  | limitReached
deriving DecidableEq

/-- Metadata of a file offered to the drop zone or picker. -/
structure FileMeta where
  name : String
  size : Nat
  mime : String
deriving DecidableEq

/-- The input acceptance allow-list from the source. -/
def acceptedTypes : List String :=
  ["image/jpeg", "image/png", "image/webp", "image/heic", "image/heif"]

/-- The acceptance filter applied to one offered file. -/
def isAccepted (f : FileMeta) : Bool :=
  acceptedTypes.contains f.mime

/-- Batch capacity MAX_FILES from the source. -/
def MAX_FILES : Nat := 10

/-- The state handleFiles touches: files, processed results, message. -/
structure UiState where
  files : List FileMeta
  processed : List ProcessedImage
  message : Option UiMsg
deriving DecidableEq

/-- handleFiles from the source, returning the new state together with the
list of signals raised during the submission (setMessage with a real
message; the success path without limit clears the message instead). -/
def handleFiles (st : UiState) (fileList : List FileMeta) : UiState × List UiMsg :=
  let incoming := fileList.filter isAccepted
  if incoming.isEmpty then
    ({ st with message := some UiMsg.invalidType }, [UiMsg.invalidType])
  else
    let remainingSlots := MAX_FILES - st.files.length
    let sliced := incoming.take remainingSlots
    if MAX_FILES ≤ st.files.length + sliced.length then
      ({ files := st.files ++ sliced, processed := [], message := some UiMsg.limitReached },
        [UiMsg.limitReached])
    else
      ({ files := st.files ++ sliced, processed := [], message := none }, [])

theorem handleFiles_invalid (st : UiState) (fs : List FileMeta)
    (hinc : (fs.filter isAccepted).isEmpty = true) :
    handleFiles st fs =
      ({ st with message := some UiMsg.invalidType }, [UiMsg.invalidType]) := by
  unfold handleFiles
  rw [if_pos hinc]

theorem handleFiles_limit (st : UiState) (fs : List FileMeta)
    (hinc : ¬(fs.filter isAccepted).isEmpty = true)
    (hlim : MAX_FILES ≤ st.files.length +
      ((fs.filter isAccepted).take (MAX_FILES - st.files.length)).length) :
    handleFiles st fs =
      ({ files := st.files ++ (fs.filter isAccepted).take (MAX_FILES - st.files.length),
          processed := [], message := some UiMsg.limitReached }, [UiMsg.limitReached]) := by
  unfold handleFiles
  rw [if_neg hinc, if_pos hlim]

theorem handleFiles_room (st : UiState) (fs : List FileMeta)
    (hinc : ¬(fs.filter isAccepted).isEmpty = true)
    (hlim : ¬MAX_FILES ≤ st.files.length +
      ((fs.filter isAccepted).take (MAX_FILES - st.files.length)).length) :
    handleFiles st fs =
      ({ files := st.files ++ (fs.filter isAccepted).take (MAX_FILES - st.files.length),
          processed := [], message := none }, []) := by
  unfold handleFiles
  rw [if_neg hinc, if_neg hlim]

/-- An empty batch state. -/
def emptyUi : UiState := { files := [], processed := [], message := none }

/-- Twelve supported JPEG files submitted at once. -/
def twelveJpegs : List FileMeta :=
  (List.range 12).map (fun n => { name := toString n, size := 1000, mime := "image/jpeg" })

/-- C8: a submission never grows the batch beyond 10; the accepted count is
the supported incoming count truncated to the remaining capacity; the
limit-reached signal is raised exactly once when and only when the
submission reaches the limit; and submitting 12 supported files to an
empty batch accepts exactly 10, rejects 2, and raises the signal once. -/
theorem handleFiles_capacity (st : UiState) (fs : List FileMeta)
    (h : st.files.length ≤ MAX_FILES) :
    ((handleFiles st fs).1.files.length ≤ MAX_FILES) ∧
    ((handleFiles st fs).1.files.length =
      if (fs.filter isAccepted).isEmpty then st.files.length
      else min MAX_FILES (st.files.length + (fs.filter isAccepted).length)) ∧
    (((handleFiles st fs).2.count UiMsg.limitReached = 1) ↔
      (¬(fs.filter isAccepted).isEmpty = true ∧
        MAX_FILES ≤ st.files.length + (fs.filter isAccepted).length)) ∧
    ((handleFiles emptyUi twelveJpegs).1.files.length = 10 ∧
      twelveJpegs.length = 12 ∧
      (handleFiles emptyUi twelveJpegs).2 = [UiMsg.limitReached]) := by
  have hconc : (handleFiles emptyUi twelveJpegs).1.files.length = 10 ∧
      twelveJpegs.length = 12 ∧
      (handleFiles emptyUi twelveJpegs).2 = [UiMsg.limitReached] := by decide
  have htake : ((fs.filter isAccepted).take (MAX_FILES - st.files.length)).length =
      min (MAX_FILES - st.files.length) (fs.filter isAccepted).length :=
    List.length_take _ _
  by_cases hinc : (fs.filter isAccepted).isEmpty
  · rw [handleFiles_invalid st fs hinc]
    refine ⟨h, ?_, ?_, hconc⟩
    · rw [if_pos hinc]
    · refine iff_of_false ?_ ?_
      · show ¬List.count UiMsg.limitReached [UiMsg.invalidType] = 1
        decide
      · intro hcon
        exact hcon.1 hinc
  · by_cases hlim : MAX_FILES ≤ st.files.length +
        ((fs.filter isAccepted).take (MAX_FILES - st.files.length)).length
    · rw [handleFiles_limit st fs hinc hlim]
      rw [htake] at hlim
      refine ⟨?_, ?_, ?_, hconc⟩
      · show (st.files ++ (fs.filter isAccepted).take (MAX_FILES - st.files.length)).length ≤
          MAX_FILES
        rw [List.length_append, htake]
        omega
      · show (st.files ++ (fs.filter isAccepted).take (MAX_FILES - st.files.length)).length =
          if (fs.filter isAccepted).isEmpty then st.files.length
          else min MAX_FILES (st.files.length + (fs.filter isAccepted).length)
        rw [if_neg hinc, List.length_append, htake]
        omega
      · refine iff_of_true ?_ ⟨hinc, by omega⟩
        show List.count UiMsg.limitReached [UiMsg.limitReached] = 1
        decide
    · rw [handleFiles_room st fs hinc hlim]
      rw [htake] at hlim
      refine ⟨?_, ?_, ?_, hconc⟩
      · show (st.files ++ (fs.filter isAccepted).take (MAX_FILES - st.files.length)).length ≤
          MAX_FILES
        rw [List.length_append, htake]
        omega
      · show (st.files ++ (fs.filter isAccepted).take (MAX_FILES - st.files.length)).length =
          if (fs.filter isAccepted).isEmpty then st.files.length
          else min MAX_FILES (st.files.length + (fs.filter isAccepted).length)
        rw [if_neg hinc, List.length_append, htake]
        omega
      · refine iff_of_false ?_ ?_
        · show ¬List.count UiMsg.limitReached ([] : List UiMsg) = 1
          decide
        · intro hcon
          have hk := hcon.2
          omega

theorem handleFiles_capacity_witness :
    emptyUi.files.length ≤ MAX_FILES ∧
    (handleFiles emptyUi twelveJpegs).1.files.length ≤ MAX_FILES := by
  refine ⟨by decide, ?_⟩
  exact (handleFiles_capacity emptyUi twelveJpegs (by decide)).1

/-- C10: any submission containing at least one supported file discards the
whole processed-results list, while all previously accepted inputs stay in
the batch (new ones are only appended). -/
theorem handleFiles_clears_processed (st : UiState) (fs : List FileMeta)
    (h : ¬(fs.filter isAccepted).isEmpty = true) :
    (handleFiles st fs).1.processed = [] ∧
    (handleFiles st fs).1.files = st.files ++
      ((fs.filter isAccepted).take (MAX_FILES - st.files.length)) := by
  by_cases hlim : MAX_FILES ≤ st.files.length +
      ((fs.filter isAccepted).take (MAX_FILES - st.files.length)).length
  · rw [handleFiles_limit st fs h hlim]
    exact ⟨rfl, rfl⟩
  · rw [handleFiles_room st fs h hlim]
    exact ⟨rfl, rfl⟩

/-- A completed record, witnessing that C10 really discards results. -/
def procEx : ProcessedImage :=
  { id := "p", originalName := "a.jpg", seoName := "bag-01.jpg", blob := [0],
    sizeKb := 0, originalSizeKb := 0, savedPercent := 0 }

def stWithResult : UiState :=
  { files := [{ name := "a.jpg", size := 2, mime := "image/jpeg" }],
    processed := [procEx], message := none }

theorem handleFiles_clears_processed_witness :
    ¬([({ name := "b.png", size := 3, mime := "image/png" } : FileMeta)].filter
        isAccepted).isEmpty = true ∧
    (handleFiles stWithResult [{ name := "b.png", size := 3, mime := "image/png" }]).1.processed
      = [] := by
  refine ⟨by decide, ?_⟩
  exact (handleFiles_clears_processed stWithResult
    [{ name := "b.png", size := 3, mime := "image/png" }] (by decide)).1

/-! The batch loop of processImages (src/unnamed/part_000 lines 660-731):
iterate the current files array with index i, resolve the effective
keyword, skip the item when it is blank, call processSingleImage inside the
item's own failure boundary (null on failure), and collect the successful
records in order. -/

/-- The keyword actually used for one image: its own override when set and
nonempty, else the batch-global keyword. -/
def effectiveKeyword (globalKw : String) (it : InputImage) : String :=
  match it.customKeyword with
  | some ck => if ck = "" then globalKw else ck
  | none => globalKw

/-- The blank test from the source: keywordToUse.trim() is empty. -/
def trimmedEmpty (s : String) : Bool :=
  (trimList s.data).isEmpty

/-- The processImages loop over the files array.  The per-item transform is
an Option-valued oracle standing for the awaited processSingleImage call:
none is the caught per-item failure. -/
def processImagesLoop (t : InputImage → Nat → Option ProcessedImage)
    (globalKw : String) : List InputImage → Nat → List ProcessedImage
  | [], _ => []
  | f :: rest, i =>
    if trimmedEmpty (effectiveKeyword globalKw f) then
      processImagesLoop t globalKw rest (i + 1)
    else
      match t f i with
      | some r => r :: processImagesLoop t globalKw rest (i + 1)
      | none => processImagesLoop t globalKw rest (i + 1)

/-- Items paired with their loop indices starting at i. -/
def withIdx {α : Type} : Nat → List α → List (Nat × α)
  | _, [] => []
  | i, x :: xs => (i, x) :: withIdx (i + 1) xs

/-- Oracle for the concrete C9 run: the transform fails on item a and
succeeds on every other item. -/
def tEx : InputImage → Nat → Option ProcessedImage :=
  fun it i => if it.id = "a" then none else some (processSingleImage encEx2 it "dress" i)

def inputA : InputImage := { id := "a", file := fileEx2 }

def inputB : InputImage := { id := "b", file := fileEx2 }

/-- C9: the batch result is exactly the per-item filterMap of the transform
over the indexed files array — a failure (none) or blank keyword yields no
record for that item and leaves every other item's processing untouched —
and concretely, when the transform fails on the first item of [a, b], the
result is exactly the record of b. -/
theorem processImages_isolation :
    (∀ (t : InputImage → Nat → Option ProcessedImage) (kw : String)
      (files : List InputImage) (i : Nat),
      processImagesLoop t kw files i =
        (withIdx i files).filterMap
          (fun p => if trimmedEmpty (effectiveKeyword kw p.2) then none else t p.2 p.1)) ∧
    processImagesLoop tEx "dress" [inputA, inputB] 0 =
      [processSingleImage encEx2 inputB "dress" 1] := by
  constructor
  · intro t kw files
    induction files with
    | nil => intro i; rfl
    | cons f rest ih =>
      intro i
      by_cases hk : trimmedEmpty (effectiveKeyword kw f)
      · simp [processImagesLoop, withIdx, hk, ih (i + 1)]
      · cases ht : t f i with
        | some r => simp [processImagesLoop, withIdx, hk, ht, ih (i + 1)]
        | none => simp [processImagesLoop, withIdx, hk, ht, ih (i + 1)]
  · rfl

/-! The filename classifier of src/src/utils/imageClassifier.ts.
analyzeFileName lower-cases the raw filename and runs it through the rule
dictionaries in source order; within each category the first entry whose
pattern list has a substring hit contributes its token and the loop breaks,
except the home-appliance category, whose loop has no break and collects
every matching entry. -/

/-- Whether pat is a prefix of the character list. -/
def leadsWith : List Char → List Char → Bool
  | [], _ => true
  | _ :: _, [] => false
  | p :: ps, c :: cs => p == c && leadsWith ps cs

/-- Whether pat occurs as a contiguous substring, as String.includes. -/
def containsSub (pat : List Char) : List Char → Bool
  | [] => pat.isEmpty
  | c :: rest => leadsWith pat (c :: rest) || containsSub pat rest

/-- name.includes(p) on a lower-cased character list. -/
def strIncludes (name : List Char) (p : String) : Bool :=
  containsSub p.data name

/-- Whether some pattern of the entry hits the name. -/
def hitsEntry (name : List Char) (pats : List String) : Bool :=
  pats.any (fun p => strIncludes name p)

/-- First-match-wins category scan: the for-of loop with a break. -/
def firstMatch (name : List Char) (cat : List (String × List String)) : List String :=
  match cat.find? (fun e => hitsEntry name e.2) with
  | some e => [e.1]
  | none => []

/-- Collect-all category scan: the home-appliance loop without break. -/
def allMatches (name : List Char) (cat : List (String × List String)) : List String :=
  (cat.filter (fun e => hitsEntry name e.2)).map (fun e => e.1)

def colorsCat : List (String × List String) :=
  [("red", ["红", "红色", "赤", "朱红", "绯红"]),
   ("blue", ["蓝", "蓝色", "湛蓝", "天蓝", "宝蓝"]),
   ("green", ["绿", "绿色", "翠绿", "墨绿", "草绿"]),
   ("yellow", ["黄", "黄色", "金黄", "橙黄", "柠檬黄"]),
   ("black", ["黑", "黑色", "玄", "墨黑", "乌黑"]),
   ("white", ["白", "白色", "纯白", "象牙白", "雪白"]),
   ("gray", ["灰", "灰色", "炭灰", "银灰", "浅灰"]),
   ("pink", ["粉", "粉色", "桃红", "玫红", "粉红"]),
   ("purple", ["紫", "紫色", "紫罗兰", "薰衣草"]),
   ("orange", ["橙", "橙色", "橘色", "橘红"]),
   ("brown", ["棕", "棕色", "褐色", "咖啡色", "卡其"]),
   ("beige", ["米色", "米白", "杏色", "卡其"]),
   ("gold", ["金", "金色", "黄金", "金属色"]),
   ("silver", ["银", "银色", "金属银"]),
   ("multicolor", ["彩", "多彩", "拼色", "渐变", "花色"])]

def materialsCat : List (String × List String) :=
  [("leather", ["皮", "皮革", "真皮", "牛皮", "羊皮"]),
   ("canvas", ["帆布", "canvas"]),
   ("cotton", ["棉", "纯棉", "棉质"]),
   ("silk", ["丝", "丝绸", "真丝", "缎面"]),
   ("wool", ["羊毛", "毛", "绒"]),
   ("denim", ["丹宁", "牛仔布"]),
   ("linen", ["亚麻", "麻"]),
   ("velvet", ["天鹅绒", "绒布", "velvet"]),
   ("lace", ["蕾丝", "镂空"]),
   ("knit", ["针织", "编织"]),
   ("metal", ["金属", "合金", "不锈钢"]),
   ("wood", ["木", "木质", "实木"]),
   ("ceramic", ["陶瓷", "瓷"]),
   ("glass", ["玻璃", "钢化玻璃"]),
   ("plastic", ["塑料", "塑胶"])]

def stylesCat : List (String × List String) :=
  [("casual", ["休闲", "日常", "随性"]),
   ("formal", ["正式", "商务", "职场"]),
   ("vintage", ["复古", "怀旧", "vintage"]),
   ("minimalist", ["简约", "极简", "简单"]),
   ("luxury", ["奢华", "豪华", "奢侈", "高端"]),
   ("cute", ["可爱", "萌", "甜美"]),
   ("elegant", ["优雅", "典雅", "优雅"]),
   ("sport", ["运动", "活力", "户外"]),
   ("classic", ["经典", "经典款"]),
   ("modern", ["现代", "潮流", "时尚"]),
   ("bohemian", ["波西米亚", "波西米亚风"]),
   ("preppy", ["学院", "学院风"]),
   ("street", ["街头", "街头风"])]

def clothingCat : List (String × List String) :=
  [("dress", ["连衣裙", "裙装", "礼服裙", "晚礼服", "婚纱裙", "tea-dress", "maxi-dress"]),
   ("skirt", ["半身裙", "短裙", "长裙", "a字裙", "百褶裙", "包臀裙"]),
   ("pants", ["裤子", "长裤", "休闲裤", "直筒裤", "阔腿裤", "小脚裤"]),
   ("jeans", ["牛仔裤", "牛仔裤", "denim", "丹宁"]),
   ("shorts", ["短裤", "热裤"]),
   ("t-shirt", ["t恤", "tshirt", "t-shirt", "短袖", "体恤"]),
   ("shirt", ["衬衫", "长袖", "top", "上衣"]),
   ("blouse", ["女衫", "女士衬衫", "雪纺衫"]),
   ("sweater", ["毛衣", "针织衫", "pullover"]),
   ("hoodie", ["卫衣", "连帽衫", "套头衫"]),
   ("cardigan", ["开衫", "开襟衫"]),
   ("jacket", ["夹克", "外套", "短外套"]),
   ("coat", ["大衣", "风衣", "毛呢大衣", "羊毛大衣"]),
   ("blazer", ["西装外套", "小西装"]),
   ("suit", ["西装", "套装", "正装"]),
   ("vest", ["背心", "马甲"]),
   ("jumpsuit", ["连体裤", "连身衣"]),
   ("romper", ["连体短裤"])]

def shoesCat : List (String × List String) :=
  [("sneakers", ["运动鞋", "休闲鞋", "板鞋", "sneaker", "trainer"]),
   ("running-shoes", ["跑鞋", "跑步鞋", "慢跑鞋"]),
   ("boots", ["靴子", "靴", "长靴", "短靴", "马丁靴", "切尔西靴", "snow-boots"]),
   ("ankle-boots", ["短靴", "踝靴"]),
   ("heels", ["高跟鞋", "高跟", "stiletto", "pumps"]),
   ("stilettos", ["细高跟", "细跟"]),
   ("flats", ["平底鞋", "平底", "ballet"]),
   ("sandals", ["凉鞋", "凉鞋", "sandals"]),
   ("slippers", ["拖鞋", "拖鞋"]),
   ("loafers", ["乐福鞋", "豆豆鞋", "loafer"]),
   ("oxfords", ["牛津鞋"]),
   ("derby", ["德比鞋"]),
   ("canvas-shoes", ["帆布鞋"])]

def bagsCat : List (String × List String) :=
  [("handbag", ["手提包", "拎包", "handbag"]),
   ("shoulder-bag", ["单肩包", "肩包", "斜挎包"]),
   ("crossbody-bag", ["斜挎包", "跨包"]),
   ("backpack", ["双肩包", "背包", "书包"]),
   ("tote-bag", ["托特包", "tote", "大容量包"]),
   ("clutch", ["手拿包", "晚宴包", "clutch"]),
   ("wallet", ["钱包", "皮夹", "长款钱包", "短款钱包"]),
   ("purse", ["零钱包", "小包"]),
   ("belt-bag", ["腰包", "胸包"]),
   ("messenger-bag", ["邮差包", "信使包"]),
   ("backpack-purse", ["双肩包", "背包"])]

def jewelryCat : List (String × List String) :=
  [("necklace", ["项链", "吊坠", "pendant", "chain"]),
   ("choker", ["颈链", "choker"]),
   ("earrings", ["耳环", "耳钉", "earring", "stud"]),
   ("drop-earrings", ["耳坠", "长耳环"]),
   ("bracelet", ["手链", "手镯", "bracelet"]),
   ("bangle", ["手镯", "硬手镯"]),
   ("ring", ["戒指", "指环", "wedding-ring", "engagement-ring"]),
   ("brooch", ["胸针", "胸花"]),
   ("watch", ["手表", "腕表", "智能手表"]),
   ("anklet", ["脚链"])]

def accessoriesCat : List (String × List String) :=
  [("belt", ["腰带", "皮带", "皮带"]),
   ("scarf", ["围巾", "丝巾", "羊绒围巾"]),
   ("hat", ["帽子", "鸭舌帽", "cap", "礼帽"]),
   ("beanie", ["针织帽", "冷帽", "毛线帽"]),
   ("gloves", ["手套", "皮手套", "针织手套"]),
   ("sunglasses", ["太阳镜", "墨镜", "sunglasses"]),
   ("eyeglasses", ["眼镜", "光学镜", "frame"]),
   ("tie", ["领带", "necktie"]),
   ("bow-tie", ["领结"]),
   ("hair-accessory", ["发饰", "发夹", "发箍"])]

def electronicsCat : List (String × List String) :=
  [("smartphone", ["智能手机", "手机", "iphone", "android"]),
   ("phone", ["手机", "移动电话"]),
   ("laptop", ["笔记本电脑", "笔记本", "laptop", "macbook"]),
   ("tablet", ["平板电脑", "平板", "ipad", "tablet"]),
   ("headphones", ["头戴式耳机", "耳机", "headphones", "over-ear"]),
   ("earbuds", ["入耳式耳机", "耳塞", "earbuds", "airpods"]),
   ("speaker", ["音箱", "扬声器", "音响", "蓝牙音箱"]),
   ("camera", ["相机", "摄像机", "单反", "微单", "dslr"]),
   ("smartwatch", ["智能手表", "智能手环"]),
   ("keyboard", ["键盘", "机械键盘"]),
   ("mouse", ["鼠标", "无线鼠标"]),
   ("charger", ["充电器", "充电头"]),
   ("cable", ["数据线", "充电线", "连接线"]),
   ("case", ["手机壳", "保护壳", "case", "cover"])]

def homeCat : List (String × List String) :=
  [("coffee-maker", ["咖啡机", "咖啡壶", "espresso"]),
   ("coffee-grinder", ["磨豆机", "研磨机", "磨咖啡"]),
   ("kettle", ["电水壶", "烧水壶", "水壶"]),
   ("blender", ["搅拌机", "榨汁机", "破壁机"]),
   ("toaster", ["烤面包机", "多士炉"]),
   ("microwave", ["微波炉"]),
   ("air-fryer", ["空气炸锅", "炸锅"]),
   ("rice-cooker", ["电饭煲", "电饭锅"]),
   ("mixer", ["厨师机", "和面机"]),
   ("vacuum", ["吸尘器", "扫地机"]),
   ("lamp", ["台灯", "落地灯", "吊灯", "灯具"]),
   ("bulb", ["灯泡", "照明"]),
   ("fan", ["风扇", "电风扇", "台扇"]),
   ("heater", ["取暖器", "电暖器"]),
   ("humidifier", ["加湿器"]),
   ("dehumidifier", ["除湿机"]),
   ("purifier", ["净化器", "空气净化器"])]

def furnitureCat : List (String × List String) :=
  [("sofa", ["沙发", "真皮沙发", "布艺沙发", "couch"]),
   ("chair", ["椅子", "餐椅", "办公椅", "armchair", "休闲椅"]),
   ("table", ["桌子", "餐桌", "书桌", "coffee-table", "茶几"]),
   ("desk", ["书桌", "办公桌", "写字台"]),
   ("bed", ["床", "双人床", "单人床", "床架"]),
   ("mattress", ["床垫", "弹簧床垫"]),
   ("cabinet", ["柜子", "储物柜", "电视柜", "sideboard"]),
   ("shelf", ["架子", "书架", "置物架"]),
   ("wardrobe", ["衣柜", "衣橱"]),
   ("drawer", ["抽屉", "床头柜", "bedside-table"])]

def kitchenCat : List (String × List String) :=
  [("cookware", ["锅具", "炒锅", "汤锅", "平底锅"]),
   ("knife", ["刀具", "菜刀", "chef-knife"]),
   ("cutting-board", ["砧板", "切菜板"]),
   ("dinnerware", ["餐具", "碗碟", "盘子", "plate"]),
   ("flatware", ["刀叉", "勺子", "cutlery"]),
   ("glassware", ["玻璃杯", "水杯", "酒杯"]),
   ("storage", ["收纳盒", "保鲜盒", "储物罐"])]

def beautyCat : List (String × List String) :=
  [("foundation", ["粉底液", "粉底", "底妆"]),
   ("lipstick", ["口红", "唇膏", "lipstick", "liquid-lipstick"]),
   ("lip-gloss", ["唇釉", "唇蜜", "lip-gloss"]),
   ("mascara", ["睫毛膏", "mascara"]),
   ("eyeliner", ["眼线笔", "眼线"]),
   ("eyeshadow", ["眼影", "palette"]),
   ("skincare", ["护肤", "护肤品", "护肤套装"]),
   ("serum", ["精华液", "精华", "serum"]),
   ("moisturizer", ["面霜", "乳液", "保湿霜"]),
   ("cleanser", ["洁面", "洗面奶", "洁面乳"]),
   ("toner", ["爽肤水", "化妆水", "水"]),
   ("mask", ["面膜", "face-mask"]),
   ("perfume", ["香水", "fragrance", "cologne"]),
   ("makeup-brush", ["化妆刷", "美妆蛋", "工具"])]

def sportsCat : List (String × List String) :=
  [("yoga-mat", ["瑜伽垫", "健身垫"]),
   ("dumbbell", ["哑铃", "壶铃"]),
   ("resistance-band", ["弹力带", "拉力器"]),
   ("tent", ["帐篷", "露营帐篷"]),
   ("sleeping-bag", ["睡袋"]),
   ("backpack", ["登山包", "旅行包", "hiking-backpack"]),
   ("water-bottle", ["水壶", "运动水壶"])]

def babyCat : List (String × List String) :=
  [("diaper", ["尿布", "纸尿裤", "diaper"]),
   ("baby-clothes", ["童装", "婴儿装", "baby-clothes"]),
   ("stroller", ["婴儿车", "推车"]),
   ("baby-carrier", ["婴儿背带", "腰凳"]),
   ("baby-bottle", ["奶瓶", "水杯"]),
   ("pacifier", ["奶嘴", "安抚奶嘴"]),
   ("toy", ["玩具", "益智玩具", "plush-toy"])]

def petCat : List (String × List String) :=
  [("pet-bed", ["宠物床", "猫窝", "狗窝"]),
   ("pet-food", ["宠物粮", "猫粮", "狗粮"]),
   ("pet-toy", ["宠物玩具", "猫玩具", "狗玩具"]),
   ("leash", ["牵引绳", "狗绳"]),
   ("collar", ["项圈", "pet-collar"]),
   ("litter-box", ["猫砂盆"])]

def scenesCat : List (String × List String) :=
  [("office", ["办公", "办公室", "work"]),
   ("home", ["家居", "家用", "home"]),
   ("outdoor", ["户外", "旅行", "travel"]),
   ("party", ["派对", "晚宴", "party"]),
   ("wedding", ["婚礼", "婚庆", "wedding"]),
   ("casual", ["日常", "休闲", "casual"]),
   ("business", ["商务", "正式", "business"])]

def seasonsCat : List (String × List String) :=
  [("spring", ["春", "春季", "spring"]),
   ("summer", ["夏", "夏季", "summer"]),
   ("autumn", ["秋", "秋季", "autumn", "fall"]),
   ("winter", ["冬", "冬季", "winter"]),
   ("all-season", ["四季", "全年", "all-season"])]

def sizesCat : List (String × List String) :=
  [("mini", ["迷你", "小型", "mini", "小号"]),
   ("small", ["小", "sm", "s"]),
   ("medium", ["中", "m", "md"]),
   ("large", ["大", "l", "lg"]),
   ("xlarge", ["特大", "xl", "加大"]),
   ("plus-size", ["加肥", "大码", "plus"]),
   ("oversized", ["宽松", "大版型"])]

/-- analyzeFileName from src/src/utils/imageClassifier.ts: lower-case the
raw filename and scan all categories in source order, first-match-wins
everywhere except the home-appliance category, which collects all. -/
def analyzeFileName (fileName : String) : List String :=
  let name := fileName.data.map jsLower
  firstMatch name colorsCat ++ firstMatch name materialsCat ++
  firstMatch name stylesCat ++ firstMatch name clothingCat ++
  firstMatch name shoesCat ++ firstMatch name bagsCat ++
  firstMatch name jewelryCat ++ firstMatch name accessoriesCat ++
  firstMatch name electronicsCat ++ allMatches name homeCat ++
  firstMatch name furnitureCat ++ firstMatch name kitchenCat ++
  firstMatch name beautyCat ++ firstMatch name sportsCat ++
  firstMatch name babyCat ++ firstMatch name petCat ++
  firstMatch name scenesCat ++ firstMatch name seasonsCat ++
  firstMatch name sizesCat

/-- analyzeImage's keyword list: the filename tokens, or the single generic
fallback token when nothing matched. -/
def suggestedKeywordsOf (fileName : String) : List String :=
  let ks := analyzeFileName fileName
  if ks.isEmpty then ["product"] else ks

/-- C6 counterexample: the filename of the claimed scenario matches no
home-appliance entry at all (their patterns are Chinese phrases plus
espresso); its only hit is the size token medium, via the pattern m inside
maker.  The classifier therefore does not return coffee-maker and
coffee-grinder for it. -/
theorem coffee_filename_counterexample :
    analyzeFileName "#01_coffee-maker_grinder_front.png" = ["medium"] ∧
    ¬"coffee-maker" ∈ analyzeFileName "#01_coffee-maker_grinder_front.png" ∧
    ¬"coffee-grinder" ∈ analyzeFileName "#01_coffee-maker_grinder_front.png" := by
  refine ⟨by decide, by decide, by decide⟩

/-- C6 amended: within every category the first matching entry is selected
and the category contributes at most one token, except the home-appliance
category, which contributes every matching entry; however the filename
"#01_coffee-maker_grinder_front.png" yields only the token medium, while a
filename containing the actual appliance patterns 咖啡机 and 磨豆机 yields
both coffee-maker and coffee-grinder without an early exit. -/
theorem category_policy_and_home_multimatch :
    (∀ (name : List Char) (cat : List (String × List String)),
      (firstMatch name cat).length ≤ 1) ∧
    analyzeFileName "#01_coffee-maker_grinder_front.png" = ["medium"] ∧
    analyzeFileName "咖啡机磨豆机" = ["coffee-maker", "coffee-grinder"] := by
  refine ⟨?_, by decide, by decide⟩
  intro name cat
  unfold firstMatch
  cases cat.find? (fun e => hitsEntry name e.2) <;> simp

/-! extractKeywords of src/src/utils/imageClassifier.ts: combine the
primary token with a recognized color, material and style token, add one
further token when none of those three was found, truncate to four tokens
and join with hyphens. -/

/-- The color token allow-list of extractKeywords. -/
def colorSet : List String :=
  ["red", "blue", "green", "yellow", "black", "white", "gray", "pink",
   "purple", "orange", "brown", "beige", "gold", "silver"]

/-- The material token allow-list of extractKeywords. -/
def materialSet : List String :=
  ["leather", "canvas", "cotton", "silk", "wool", "denim", "linen",
   "velvet", "lace", "knit", "metal", "wood"]

/-- The style token allow-list of extractKeywords. -/
def styleSet : List String :=
  ["casual", "formal", "vintage", "minimalist", "luxury", "cute",
   "elegant", "sport", "classic", "modern"]

/-- suggestedKeywords[0] with the falsy-to-product default. -/
def headOrProduct (ks : List String) : String :=
  match ks.head? with
  | some k => if k = "" then "product" else k
  | none => "product"

/-- extractKeywords' combination step, statement for statement from the
source: start from the primary token; push the first color, material and
style hits unconditionally; when none of those three was found and the
list has a second token, push the first token differing from the primary;
take four and join with hyphens, defaulting to product. -/
def extractKeywordsFromList (ks : List String) : String :=
  let category := headOrProduct ks
  let color := ks.find? (fun k => colorSet.contains k)
  let material := ks.find? (fun k => materialSet.contains k)
  let style := ks.find? (fun k => styleSet.contains k)
  let combined := [category] ++ color.toList ++ material.toList ++ style.toList
  let combined2 :=
    if color = none ∧ material = none ∧ style = none ∧ 1 < ks.length then
      match ks.find? (fun k => k != category) with
      | some k2 => combined ++ [k2]
      | none => combined
    else combined
  let fin := String.intercalate "-" (combined2.take 4)
  if fin = "" then "product" else fin

/-- extractKeywords applied to a filename through the filename analyzer. -/
def extractKeywordsModel (fileName : String) : String :=
  extractKeywordsFromList (suggestedKeywordsOf fileName)

/-- Modelled from the claim's words for refutation only: the token
composition as the claim states it, with the style token admitted only
while fewer than three tokens are chosen and one further non-generic token
admitted only while fewer than two are chosen. -/
def extractKeywordClaimRecipe (ks : List String) : String :=
  let category := headOrProduct ks
  let color := ks.find? (fun k => colorSet.contains k)
  let material := ks.find? (fun k => materialSet.contains k)
  let c1 := [category] ++ color.toList ++ material.toList
  let c2 :=
    if c1.length < 3 then c1 ++ (ks.find? (fun k => styleSet.contains k)).toList else c1
  let c3 :=
    if c2.length < 2 then
      c2 ++ (ks.find? (fun k => !c2.contains k && k != "product")).toList
    else c2
  let fin := String.intercalate "-" (c3.take 4)
  if fin = "" then "product" else fin

/-- C7 counterexample: for the filename 红真皮复古连衣裙 (red genuine
leather vintage dress) the merged list is [red, leather, vintage, dress];
the code pushes the style token vintage although three tokens are already
chosen and returns red-red-leather-vintage, while the claimed recipe stops
at red-red-leather. -/
theorem extract_style_gate_counterexample :
    suggestedKeywordsOf "红真皮复古连衣裙" = ["red", "leather", "vintage", "dress"] ∧
    extractKeywordsModel "红真皮复古连衣裙" = "red-red-leather-vintage" ∧
    extractKeywordClaimRecipe (suggestedKeywordsOf "红真皮复古连衣裙") = "red-red-leather" ∧
    extractKeywordsModel "红真皮复古连衣裙" ≠
      extractKeywordClaimRecipe (suggestedKeywordsOf "红真皮复古连衣裙") := by
  decide

/-- Modelled from the claim's words with the single amendment the
counterexample forces: the style token is appended whenever present,
regardless of how many tokens are already chosen; everything else is the
claimed recipe (one further token differing from the primary is appended
only while fewer than two tokens are chosen, then take four, join with
hyphens, default product). -/
def extractKeywordAmendedRecipe (ks : List String) : String :=
  let category := headOrProduct ks
  let color := ks.find? (fun k => colorSet.contains k)
  let material := ks.find? (fun k => materialSet.contains k)
  let style := ks.find? (fun k => styleSet.contains k)
  let base := [category] ++ color.toList ++ material.toList ++ style.toList
  let withExtra :=
    if base.length < 2 ∧ 1 < ks.length then
      base ++ (ks.find? (fun k => k != category)).toList
    else base
  let fin := String.intercalate "-" (withExtra.take 4)
  if fin = "" then "product" else fin

/-- C7 amended: the source's extractKeywords composes exactly the amended
recipe on every keyword list: primary token, then color, then material,
then style whenever present, then one further token differing from the
primary only when none of color, material and style was found and the list
has more than one token; at most four tokens joined with hyphens, with the
product fallback. -/
theorem extractKeywords_matches_amended_recipe (ks : List String) :
    extractKeywordsFromList ks = extractKeywordAmendedRecipe ks := by
  unfold extractKeywordsFromList extractKeywordAmendedRecipe
  dsimp only
  generalize headOrProduct ks = cat
  generalize ks.find? (fun k => colorSet.contains k) = co
  generalize ks.find? (fun k => materialSet.contains k) = ma
  generalize ks.find? (fun k => styleSet.contains k) = st
  generalize ks.find? (fun k => k != cat) = ex
  have hmain :
      (if co = none ∧ ma = none ∧ st = none ∧ 1 < ks.length then
        match ex with
        | some k2 => ([cat] ++ co.toList ++ ma.toList ++ st.toList) ++ [k2]
        | none => [cat] ++ co.toList ++ ma.toList ++ st.toList
      else [cat] ++ co.toList ++ ma.toList ++ st.toList) =
      (if ([cat] ++ co.toList ++ ma.toList ++ st.toList).length < 2 ∧ 1 < ks.length then
        ([cat] ++ co.toList ++ ma.toList ++ st.toList) ++ ex.toList
      else [cat] ++ co.toList ++ ma.toList ++ st.toList) := by
    cases co with
    | some c =>
      rw [if_neg (by simp), if_neg (by simp [List.length_append])]
    | none =>
      cases ma with
      | some m =>
        rw [if_neg (by simp), if_neg (by simp [List.length_append])]
      | none =>
        cases st with
        | some s =>
          rw [if_neg (by simp), if_neg (by simp [List.length_append])]
        | none =>
          by_cases hlen : 1 < ks.length
          · rw [if_pos (by simp [hlen]), if_pos (by simp [hlen])]
            cases ex with
            | some k2 => rfl
            | none => simp
          · rw [if_neg (by simp [hlen]), if_neg (by simp [hlen])]
  rw [hmain]

end ShopifySeo
